import Mathlib

/-!
Verification of the configuration / registry layer of hezar.

The sources modelled here are src/hezar/configs.py and
src/hezar/utils/config_utils.py.  Python dictionaries are embedded as
insertion-ordered association lists over string keys: setting an existing key
updates it in place, setting a new key appends it at the end, and lookup
returns the first (unique, for genuine Python dicts) match.
-/

/-- First-match lookup, the reading side of a Python dict. -/
def getKey? {α : Type} : List (String × α) → String → Option α
  | [], _ => none
  | (k', v) :: rest, k => if k' = k then some v else getKey? rest k

/-- Python dict assignment d[k] = v: update in place if present, else append. -/
def setKey {α : Type} : List (String × α) → String → α → List (String × α)
  | [], k, v => [(k, v)]
  | (k', v') :: rest, k, v =>
    if k' = k then (k, v) :: rest else (k', v') :: setKey rest k v

/-- Python dict.pop's removal effect: drop the first binding of k. -/
def removeKey {α : Type} : List (String × α) → String → List (String × α)
  | [], _ => []
  | (k', v') :: rest, k => if k' = k then rest else (k', v') :: removeKey rest k

/-- Python dict.update(u): assign every pair of u, in order, into base. -/
def dictUpdate {α : Type} : List (String × α) → List (String × α) → List (String × α)
  | base, [] => base
  | base, (k, v) :: rest => dictUpdate (setKey base k v) rest

/-- Last-match lookup: the value the latest binding of k holds, if any. -/
def lastLookup {α : Type} : List (String × α) → String → Option α
  | [], _ => none
  | (k', v) :: rest, k =>
    match lastLookup rest k with
    | some w => some w
    | none => if k' = k then some v else none

/-- Left-biased choice on options. -/
def oOr {α : Type} : Option α → Option α → Option α
  | some v, _ => some v
  | none, b => b

theorem oOr_none_left {α : Type} (b : Option α) : oOr none b = b := rfl

theorem oOr_assoc {α : Type} (a b c : Option α) :
    oOr (oOr a b) c = oOr a (oOr b c) := by
  cases a <;> rfl

theorem getKey?_setKey {α : Type} (l : List (String × α)) (k q : String) (v : α) :
    getKey? (setKey l k v) q = if k = q then some v else getKey? l q := by
  induction l with
  | nil => simp [setKey, getKey?]
  | cons h t ih =>
    obtain ⟨k1, v1⟩ := h
    by_cases h1 : k1 = k
    · subst h1
      by_cases hq : k1 = q <;> simp [setKey, getKey?, hq]
    · by_cases hq : k1 = q
      · have hkq : ¬ k = q := fun hh => h1 (hq.trans hh.symm)
        have hqk : ¬ q = k := fun hh => hkq hh.symm
        simp [setKey, getKey?, h1, hq, hkq, hqk]
      · simp [setKey, getKey?, h1, hq, ih]

theorem getKey?_dictUpdate {α : Type} (u base : List (String × α)) (q : String) :
    getKey? (dictUpdate base u) q = oOr (lastLookup u q) (getKey? base q) := by
  induction u generalizing base with
  | nil => simp [dictUpdate, lastLookup, oOr]
  | cons h t ih =>
    obtain ⟨k, v⟩ := h
    simp only [dictUpdate, lastLookup]
    rw [ih, getKey?_setKey]
    cases hl : lastLookup t q with
    | some w => simp [oOr]
    | none =>
      by_cases hk : k = q <;> simp [oOr, hk]

theorem lastLookup_append {α : Type} (a b : List (String × α)) (q : String) :
    lastLookup (a ++ b) q = oOr (lastLookup b q) (lastLookup a q) := by
  induction a with
  | nil => simp [lastLookup, oOr]; cases lastLookup b q <;> rfl
  | cons h t ih =>
    obtain ⟨k, v⟩ := h
    simp only [List.cons_append, lastLookup]
    cases hb : lastLookup b q <;> cases ht : lastLookup t q <;>
      simp [oOr, hb, ht, ih]

theorem lastLookup_eq_none_iff {α : Type} (l : List (String × α)) (q : String) :
    lastLookup l q = none ↔ getKey? l q = none := by
  induction l with
  | nil => simp [lastLookup, getKey?]
  | cons h t ih =>
    obtain ⟨k, v⟩ := h
    simp only [lastLookup, getKey?]
    by_cases hk : k = q
    · cases ht : lastLookup t q <;> simp [hk, ht]
    · cases ht : lastLookup t q
      · have h2 := ih.mp ht
        simp [hk, ht, h2]
      · have h2 : ¬ getKey? t q = none := fun hh => by
          simp [ih.mpr hh] at ht
        simp [hk, ht, h2]

theorem getKey?_removeKey_ne {α : Type} (l : List (String × α)) (k0 q : String)
    (h : q ≠ k0) : getKey? (removeKey l k0) q = getKey? l q := by
  induction l with
  | nil => simp [removeKey]
  | cons hd t ih =>
    obtain ⟨k, v⟩ := hd
    by_cases hk : k = k0
    · have hne : ¬ k = q := fun hh => h (hh.symm.trans hk)
      have h0 : ¬ k0 = q := fun hh => h hh.symm
      simp [removeKey, hk, getKey?, hne, h0]
    · by_cases hq : k = q <;> simp [removeKey, hk, getKey?, hq, ih, h]

theorem lastLookup_removeKey_ne {α : Type} (l : List (String × α)) (k0 q : String)
    (h : q ≠ k0) : lastLookup (removeKey l k0) q = lastLookup l q := by
  induction l with
  | nil => simp [removeKey]
  | cons hd t ih =>
    obtain ⟨k, v⟩ := hd
    by_cases hk : k = k0
    · have hne : ¬ k = q := fun hh => h (hh.symm.trans hk)
      simp only [removeKey, if_pos hk, lastLookup]
      cases ht : lastLookup t q <;> simp [ht, hne]
    · simp only [removeKey, if_neg hk, lastLookup, ih]

/-!
Values of the embedded dynamic language.  YAML / Python values carried by
configs: scalars, nested plain dicts, and nested config objects.  A Python
object of a Config (sub)class is vCfg with its class name and its attribute
dict; None is vNone.
-/

inductive Value : Type where
  | vNone : Value
  | vInt (n : Int) : Value
  | vStr (s : String) : Value
  | vBool (b : Bool) : Value
  | vDict (fields : List (String × Value)) : Value
  | vCfg (cls : String) (attrs : List (String × Value)) : Value

/-- Is the value Python None? (used by Config.save's None filter). -/
def Value.isNone : Value → Bool
  | .vNone => true
  | _ => false

/-- Is the value a Config instance (a Python object of a Config subclass)? -/
def Value.isCfg : Value → Bool
  | .vCfg _ _ => true
  | _ => false

/-- Class name of a config instance (empty for non-objects). -/
def Value.clsName : Value → String
  | .vCfg c _ => c
  | _ => ""

/-- Python getattr on a config object: look the key up in its attribute dict. -/
def getattr? : Value → String → Option Value
  | .vCfg _ attrs, k => getKey? attrs k
  | _, _ => none

/-- Python setattr on a config object (no-op on non-objects, which never
occurs in the modelled code paths). -/
def setattr : Value → String → Value → Value
  | .vCfg c attrs, k, v => .vCfg c (setKey attrs k v)
  | other, _, _ => other

/-- Methods defined on the Config class in src/hezar/configs.py; they are
attributes of the class and of every instance, so hasattr sees them.
Dunder attributes are omitted: no modelled code path queries them. -/
def configMethodNames : List String :=
  ["keys", "pop", "get", "update", "load", "from_dict", "save", "push_to_hub", "dict"]

/-- Python hasattr(self, k) for a config instance: an attribute in the
instance dict or a method of the class. -/
def hasattrInst (self : Value) (k : String) : Bool :=
  match self with
  | .vCfg _ attrs => (getKey? attrs k).isSome || configMethodNames.contains k
  | _ => false

/-- Config.dict (configs.py line 50): returns self.__dict__ — the attribute
dict itself, by reference, not a copy. -/
def Config.dict : Value → List (String × Value)
  | .vCfg _ attrs => attrs
  | _ => []

/-- Config.keys (configs.py line 31): self.dict().keys(). -/
def Config.keys (self : Value) : List String :=
  (Config.dict self).map Prod.fst

/-- Config.pop (configs.py lines 34-36): value = self.dict().pop(key, default).
Because Config.dict returns the instance __dict__ by reference, dict.pop also
removes the attribute from the instance; the mutated instance is returned as
the second component. -/
def Config.pop (self : Value) (key : String) (default : Value) : Value × Value :=
  match self with
  | .vCfg c attrs => ((getKey? attrs key).getD default, .vCfg c (removeKey attrs key))
  | other => (default, other)

/-- The loop body of Config.update (configs.py lines 58-61): for each pair,
warn when the key is not an existing attribute, then setattr unconditionally.
The warning log is accumulated (in emission order) as the second component. -/
def updateGo : Value → List (String × Value) → List String → Value × List String
  | self, [], ws => (self, ws.reverse)
  | self, (k, v) :: rest, ws =>
    updateGo (setattr self k v) rest (if hasattrInst self k then ws else k :: ws)

/-- Config.update (configs.py lines 56-62): d.update(kwargs) mutates the
caller's d, then every key of d is setattr'd onto self with a warning for
unknown keys.  Returns (self after the loop, d after mutation, warnings). -/
def Config.update (self : Value) (d kwargs : List (String × Value)) :
    Value × List (String × Value) × List String :=
  let d2 := dictUpdate d kwargs
  let r := updateGo self d2 []
  (r.1, d2, r.2)

/-!
Config classes.  A dataclass is embedded as its name plus its fields in
declaration order; a field carries an optional default (none = no default,
i.e. a required __init__ parameter).  Fields with defaults are class
attributes, which is what hasattr(cls, k) inspects in from_dict.
-/

structure ConfigClass : Type where
  clsName : String
  fields : List (String × Option Value)

/-- Python hasattr(cls, k) for a Config dataclass: fields with defaults are
class attributes; methods are too. -/
def hasattrCls (cls : ConfigClass) (k : String) : Bool :=
  cls.fields.any (fun f => f.1 = k && f.2.isSome) || configMethodNames.contains k

/-- The dataclass __init__ field loop: each field takes the keyword argument
when supplied, else its default; a required field with no argument is a
TypeError (none). -/
def constructFields : List (String × Option Value) → List (String × Value) →
    Option (List (String × Value))
  | [], _ => some []
  | (fname, fdef) :: rest, args =>
    match getKey? args fname, fdef with
    | some v, _ => (constructFields rest args).map (fun l => (fname, v) :: l)
    | none, some dv => (constructFields rest args).map (fun l => (fname, dv) :: l)
    | none, none => none

/-- Python cls(**args) for a dataclass: a TypeError (none) when an argument
is not a field name, otherwise the instance with attributes in field order. -/
def construct (cls : ConfigClass) (args : List (String × Value)) : Option Value :=
  if args.all (fun kv => cls.fields.any (fun f => f.1 = kv.1)) then
    (constructFields cls.fields args).map (fun attrs => Value.vCfg cls.clsName attrs)
  else none

/-- Config.from_dict (configs.py lines 91-103): strict is popped from kwargs
and — as in the source — never used afterwards; dict_config is mutated by
dict_config.update(**kwargs); the instance is built from the entries whose
key is an attribute of the class, silently dropping the rest.
Returns (constructed instance or TypeError, dict_config after mutation). -/
def Config.from_dict (cls : ConfigClass) (dict_config kwargs : List (String × Value)) :
    Option Value × List (String × Value) :=
  let _strict := (getKey? kwargs "strict").getD (Value.vBool true)
  let kwargs2 := removeKey kwargs "strict"
  let dc := dictUpdate dict_config kwargs2
  let filtered := dc.filter (fun kv => hasattrCls cls kv.1)
  (construct cls filtered, dc)

/-!
flatten_dict (config_utils.py lines 25-43): recursively collapses nested
dict values into one level, merging each nested level into the accumulated
result with dict.update, so a later binding of a key overwrites an earlier
one.  The accumulator is threaded exactly as the source's config variable.
-/

def flattenGo : List (String × Value) → List (String × Value) → List (String × Value)
  | [], acc => acc
  | (_, Value.vDict d2) :: rest, acc =>
    flattenGo rest (dictUpdate acc (flattenGo d2 []))
  | (k, v) :: rest, acc => flattenGo rest (setKey acc k v)
termination_by l _ => sizeOf l
decreasing_by all_goals simp_wf <;> omega

def flatten_dict (dict_config : List (String × Value)) : List (String × Value) :=
  flattenGo dict_config []

/-- The leaf key-value pairs of a nested mapping, in the order the source's
traversal writes them; used to state what flatten_dict computes. -/
def leafPairsSpec : List (String × Value) → List (String × Value)
  | [] => []
  | (_, Value.vDict d2) :: rest => leafPairsSpec d2 ++ leafPairsSpec rest
  | (k, v) :: rest => (k, v) :: leafPairsSpec rest
termination_by l => sizeOf l
decreasing_by all_goals simp_wf <;> omega

/-!
Registry lookups (config_utils.py).  The registry module itself is not among
the sources; a registry is a plain mapping from a key to its entry, as the
spec's Registry Store section describes, and the lookup functions below are
translated from config_utils.py lines 76-144.
-/

structure RegistryEntry : Type where
  module_class : String
  config_class : ConfigClass

structure Registries : Type where
  models_registry : List (String × RegistryEntry)
  preprocessors_registry : List (String × RegistryEntry)
  datasets_registry : List (String × RegistryEntry)
  embeddings_registry : List (String × RegistryEntry)
  metrics_registry : List (String × RegistryEntry)

/-- Modelled from the spec: the ConfigType string constants live in
src/hezar/constants.py, which is absent from the sources; section 6 of the
spec enumerates the kind strings, and the config_type defaults of the
dataclasses in configs.py fix the spellings used here. -/
def ConfigType.MODEL : String := "model"

/-- Modelled from the spec: see ConfigType.MODEL. -/
def ConfigType.PREPROCESSOR : String := "preprocessor"

/-- Modelled from the spec: see ConfigType.MODEL. -/
def ConfigType.DATASET : String := "dataset"

/-- Modelled from the spec: see ConfigType.MODEL. -/
def ConfigType.EMBEDDING : String := "embedding"

/-- Modelled from the spec: see ConfigType.MODEL. -/
def ConfigType.METRIC : String := "metric"

inductive LookupError : Type where
  | invalidType (t : String) : LookupError
  | keyError (name : String) : LookupError

/-- Modelled from the spec: snake_case lives in utils/common_utils.py, absent
from the sources.  Section 4.1 of the spec says keys are normalized to snake
case so that a Pascal-case spelling and its snake spelling collide.  The
usual conversion: an underscore is inserted between a lowercase letter or
digit and an uppercase letter, and between an uppercase letter and an
uppercase letter followed by a lowercase one; the result is lowercased. -/
def snakeGo : List Char → List Char
  | [] => []
  | [c] => [c.toLower]
  | c1 :: c2 :: rest =>
    if (c1.isLower || c1.isDigit) && c2.isUpper then
      c1.toLower :: '_' :: snakeGo (c2 :: rest)
    else if c1.isUpper && c2.isUpper &&
        (match rest with | c3 :: _ => c3.isLower | [] => false) then
      c1.toLower :: '_' :: snakeGo (c2 :: rest)
    else
      c1.toLower :: snakeGo (c2 :: rest)

/-- Modelled from the spec: see snakeGo. -/
def snake_case (s : String) : String := String.mk (snakeGo s.data)

/-- get_module_config_class (config_utils.py lines 76-107): select the
registry for the given config_type (only model / preprocessor / dataset /
embedding are handled; anything else is a ValueError), then index it with
the name exactly as given — no normalization on this path. -/
def get_module_config_class (R : Registries) (name : String) (config_type : String) :
    Except LookupError ConfigClass :=
  let reg? : Option (List (String × RegistryEntry)) :=
    if config_type = ConfigType.MODEL then some R.models_registry
    else if config_type = ConfigType.PREPROCESSOR then some R.preprocessors_registry
    else if config_type = ConfigType.DATASET then some R.datasets_registry
    else if config_type = ConfigType.EMBEDDING then some R.embeddings_registry
    else none
  match reg? with
  | none => .error (.invalidType config_type)
  | some reg =>
    match getKey? reg name with
    | none => .error (.keyError name)
    | some e => .ok e.config_class

/-- get_module_class (config_utils.py lines 110-144): select the registry
for the module_type (metric is handled here in addition to the four kinds
above), then normalize the name with snake_case before indexing. -/
def get_module_class (R : Registries) (name : String) (module_type : String) :
    Except LookupError String :=
  let reg? : Option (List (String × RegistryEntry)) :=
    if module_type = ConfigType.MODEL then some R.models_registry
    else if module_type = ConfigType.PREPROCESSOR then some R.preprocessors_registry
    else if module_type = ConfigType.DATASET then some R.datasets_registry
    else if module_type = ConfigType.EMBEDDING then some R.embeddings_registry
    else if module_type = ConfigType.METRIC then some R.metrics_registry
    else none
  match reg? with
  | none => .error (.invalidType module_type)
  | some reg =>
    let name := snake_case name
    match getKey? reg name with
    | none => .error (.keyError name)
    | some e => .ok e.module_class

/-!
Filesystem, hub and Config.load / Config.save (configs.py lines 64-122).
Files store the parsed form of their YAML content directly (YAML
serialization of serializable values is treated as exact), so OmegaConf.load
followed by to_container is a map lookup.
-/

structure FileSystem : Type where
  files : List (String × List (String × Value))
  dirs : List String

def FileSystem.isfile (fs : FileSystem) (p : String) : Bool :=
  (getKey? fs.files p).isSome

def FileSystem.isdir (fs : FileSystem) (p : String) : Bool :=
  fs.dirs.contains p

/-- The hub: (repo_id, subfolder, filename) to parsed file content; a missing
entry stands for any failing hf_hub_download (auth, 404, network). -/
structure Hub : Type where
  files : List ((String × String × String) × List (String × Value))

def Hub.download (hub : Hub) (repo filename subfolder : String) :
    Option (List (String × Value)) :=
  (hub.files.find? (fun e => e.1 = (repo, subfolder, filename))).map Prod.snd

/-- Modelled from the spec: resolve_pretrained_path lives in a utils module
absent from the sources; section 6 of the spec says a location string is
either a local path or an owner/repo hub id, passed through as-is, so the
resolution is the identity on the string. -/
def resolve_pretrained_path (p : String) : String := p

/-- os.path.join for the fragments used by configs.py: empty components
(an empty subfolder) contribute no separator. -/
def joinPath (parts : List String) : String :=
  match parts.filter (fun s => decide (s ≠ "")) with
  | [] => ""
  | p :: rest => rest.foldl (fun a b => a ++ "/" ++ b) p

inductive LoadError : Type where
  | configFileMissing (path filename : String) : LoadError
  | artifactNotFound : LoadError
  | keyError (k : String) : LoadError
  | invalidType (t : String) : LoadError
  | registryKeyError (name : String) : LoadError
  | typeError : LoadError

/-- Lines 85-89 of configs.py: peek name and config_type in the parsed
mapping (config["name"] / config["config_type"] are KeyErrors when absent;
a non-string value there can match no registry key and the registry lookup
raises), resolve the concrete config class through the registry, and build
it with from_dict(config, strict=False, **kwargs). -/
def Config.load_from_mapping (R : Registries) (m kwargs : List (String × Value)) :
    Except LoadError Value :=
  match getKey? m "name" with
  | none => .error (.keyError "name")
  | some nv =>
    match getKey? m "config_type" with
    | none => .error (.keyError "config_type")
    | some ctv =>
      match nv, ctv with
      | .vStr name, .vStr ctype =>
        match get_module_config_class R name ctype with
        | .error (.invalidType t) => .error (.invalidType t)
        | .error (.keyError n) => .error (.registryKeyError n)
        | .ok cls =>
          match (Config.from_dict cls m (("strict", Value.vBool false) :: kwargs)).1 with
          | none => .error .typeError
          | some c => .ok c
      | _, _ => .error .typeError

/-- Config.load (configs.py lines 64-89): resolve the location, check for a
local file; an existing local directory without the file is fatal before any
hub access; otherwise read locally or download from the hub, then dispatch
on the parsed mapping. -/
def Config.load (R : Registries) (fs : FileSystem) (hub : Hub)
    (hub_or_local_path filename subfolder : String)
    (kwargs : List (String × Value)) : Except LoadError Value :=
  let path := resolve_pretrained_path hub_or_local_path
  let config_path := joinPath [path, subfolder, filename]
  let is_local := fs.isfile config_path
  if fs.isdir path && !is_local then
    .error (.configFileMissing path filename)
  else
    match (if is_local then getKey? fs.files config_path
           else Hub.download hub path filename subfolder) with
    | none => .error .artifactNotFound
    | some m => Config.load_from_mapping R m kwargs

/-- A value tree is YAML-serializable exactly (round-trips through the text
format unchanged) when it holds scalars and plain dicts of such; a Config
instance anywhere in the tree is not preserved as an object — OmegaConf turns
it into a plain mapping on write (see yamlizeFieldsF). -/
def serializableFields : List (String × Value) → Bool
  | [] => true
  | (_, Value.vNone) :: rest => serializableFields rest
  | (_, Value.vInt _) :: rest => serializableFields rest
  | (_, Value.vStr _) :: rest => serializableFields rest
  | (_, Value.vBool _) :: rest => serializableFields rest
  | (_, Value.vDict d2) :: rest => serializableFields d2 && serializableFields rest
  | (_, Value.vCfg _ _) :: _ => false
termination_by l => sizeOf l
decreasing_by all_goals simp_wf <;> omega

/-- What OmegaConf.save followed by OmegaConf.load / to_container leaves of a
mapping's values: scalars and plain dicts pass through, while a Config
instance is written as the plain mapping of its attributes — the object
identity and class are not representable in YAML, so reload yields a dict.
The Nat argument is a recursion bound making the recursion structural; any
bound at least the node count (sizeW supplies it) computes the same,
untruncated conversion (yamlizeFieldsF_congr), and on serializable trees the
conversion is the identity for every bound (yamlizeFieldsF_id). -/
def yamlizeFieldsF : Nat → List (String × Value) → List (String × Value)
  | 0, l => l
  | _ + 1, [] => []
  | fuel + 1, (k, Value.vNone) :: rest => (k, Value.vNone) :: yamlizeFieldsF fuel rest
  | fuel + 1, (k, Value.vInt n) :: rest => (k, Value.vInt n) :: yamlizeFieldsF fuel rest
  | fuel + 1, (k, Value.vStr s) :: rest => (k, Value.vStr s) :: yamlizeFieldsF fuel rest
  | fuel + 1, (k, Value.vBool b) :: rest => (k, Value.vBool b) :: yamlizeFieldsF fuel rest
  | fuel + 1, (k, Value.vDict d2) :: rest =>
      (k, Value.vDict (yamlizeFieldsF fuel d2)) :: yamlizeFieldsF fuel rest
  | fuel + 1, (k, Value.vCfg _ attrs) :: rest =>
      (k, Value.vDict (yamlizeFieldsF fuel attrs)) :: yamlizeFieldsF fuel rest

/-- Number of key-value nodes in a mapping tree: one per entry at every
nesting level.  It bounds the recursion of yamlizeFieldsF, which consumes one
unit of its bound per entry processed (yamlizeFieldsF_congr shows any bound
at least this large yields the same, untruncated conversion). -/
def sizeW : List (String × Value) → Nat
  | [] => 0
  | (_, Value.vNone) :: rest => sizeW rest + 1
  | (_, Value.vInt _) :: rest => sizeW rest + 1
  | (_, Value.vStr _) :: rest => sizeW rest + 1
  | (_, Value.vBool _) :: rest => sizeW rest + 1
  | (_, Value.vDict d2) :: rest => sizeW d2 + sizeW rest + 1
  | (_, Value.vCfg _ attrs) :: rest => sizeW attrs + sizeW rest + 1
termination_by l => sizeOf l
decreasing_by all_goals simp_wf <;> omega

/-- The YAML conversion applied by Config.save to the written mapping. -/
def yamlizeFields (l : List (String × Value)) : List (String × Value) :=
  yamlizeFieldsF (sizeW l) l

/-- Config.save (configs.py lines 105-122): take the instance dict, drop
None-valued entries, create the directory, write the mapping to
save_dir/subfolder/filename via OmegaConf.save, which serializes the mapping
to YAML text — converting any nested Config object into the plain mapping of
its fields (yamlizeFields).  Returns the filesystem after the write and the
save path. -/
def Config.save (self : Value) (save_dir filename subfolder : String)
    (fs : FileSystem) : FileSystem × String :=
  let config := (Config.dict self).filter (fun kv => !kv.2.isNone)
  let config := yamlizeFields config
  let dirPath := joinPath [save_dir, subfolder]
  let save_path := joinPath [save_dir, subfolder, filename]
  ({ files := setKey fs.files save_path config,
     dirs := if fs.dirs.contains dirPath then fs.dirs else fs.dirs ++ [dirPath] },
   save_path)

/-!
The concrete dataclasses of configs.py (lines 26-209), with their field
declaration order and defaults.  In the base Config, name has no default;
in every subclass every field has a default.
-/

def ConfigCls : ConfigClass :=
  ⟨"Config", [("name", none), ("config_type", some (Value.vStr "base"))]⟩

def ModelConfigCls : ConfigClass :=
  ⟨"ModelConfig", [("name", some Value.vNone), ("config_type", some (Value.vStr "model"))]⟩

def PreprocessorConfigCls : ConfigClass :=
  ⟨"PreprocessorConfig",
   [("name", some Value.vNone), ("config_type", some (Value.vStr "preprocessor"))]⟩

def DatasetConfigCls : ConfigClass :=
  ⟨"DatasetConfig",
   [("name", some Value.vNone), ("config_type", some (Value.vStr "dataset")),
    ("task", some Value.vNone)]⟩

def CriterionConfigCls : ConfigClass :=
  ⟨"CriterionConfig",
   [("name", some Value.vNone), ("config_type", some (Value.vStr "criterion")),
    ("weight", some Value.vNone), ("reduce", some Value.vNone),
    ("ignore_index", some (Value.vInt (-100)))]⟩

def LRSchedulerConfigCls : ConfigClass :=
  ⟨"LRSchedulerConfig",
   [("name", some Value.vNone), ("config_type", some (Value.vStr "lr_scheduler")),
    ("verbose", some (Value.vBool true))]⟩

def OptimizerConfigCls : ConfigClass :=
  ⟨"OptimizerConfig",
   [("name", some Value.vNone), ("config_type", some (Value.vStr "optimizer")),
    ("lr", some Value.vNone), ("weight_decay", some Value.vNone)]⟩

def TrainConfigCls : ConfigClass :=
  ⟨"TrainConfig",
   [("name", some Value.vNone), ("config_type", some (Value.vStr "train")),
    ("device", some (Value.vStr "cuda")), ("optimizer", some Value.vNone),
    ("batch_size", some Value.vNone), ("metrics", some Value.vNone),
    ("metrics_kwargs", some Value.vNone), ("num_train_epochs", some Value.vNone),
    ("checkpoints_dir", some Value.vNone)]⟩

/-!
Shared lemmas about the embedded operations.
-/

def Value.isDict : Value → Bool
  | .vDict _ => true
  | _ => false

theorem oOr_none_right {α : Type} (a : Option α) : oOr a none = a := by
  cases a <;> rfl

theorem getKey?_isSome_iff_mem {α : Type} (l : List (String × α)) (k : String) :
    (getKey? l k).isSome ↔ k ∈ l.map Prod.fst := by
  induction l with
  | nil => simp [getKey?]
  | cons hd t ih =>
    obtain ⟨k1, v1⟩ := hd
    by_cases hk : k1 = k
    · subst hk
      simp [getKey?]
    · rw [List.map_cons, List.mem_cons]
      simp only [getKey?, if_neg hk]
      rw [ih]
      constructor
      · exact fun h => Or.inr h
      · rintro (h | h)
        · exact absurd h.symm hk
        · exact h

theorem keys_setKey_of_mem {α : Type} (l : List (String × α)) (k : String) (v : α)
    (h : k ∈ l.map Prod.fst) : (setKey l k v).map Prod.fst = l.map Prod.fst := by
  induction l with
  | nil => simp at h
  | cons hd t ih =>
    obtain ⟨k1, v1⟩ := hd
    by_cases hk : k1 = k
    · simp [setKey, hk]
    · rw [List.map_cons, List.mem_cons] at h
      have hm : k ∈ t.map Prod.fst := by
        rcases h with h | h
        · exact absurd h.symm hk
        · exact h
      simp [setKey, hk, ih hm]

theorem keys_setKey_of_not_mem {α : Type} (l : List (String × α)) (k : String) (v : α)
    (h : k ∉ l.map Prod.fst) :
    (setKey l k v).map Prod.fst = l.map Prod.fst ++ [k] := by
  induction l with
  | nil => simp [setKey]
  | cons hd t ih =>
    obtain ⟨k1, v1⟩ := hd
    rw [List.map_cons, List.mem_cons] at h
    push_neg at h
    have hk : ¬ k1 = k := fun hh => h.1 hh.symm
    simp [setKey, hk, ih h.2]

theorem nodup_setKey {α : Type} (l : List (String × α)) (k : String) (v : α)
    (h : (l.map Prod.fst).Nodup) : ((setKey l k v).map Prod.fst).Nodup := by
  by_cases hm : k ∈ l.map Prod.fst
  · rw [keys_setKey_of_mem l k v hm]
    exact h
  · rw [keys_setKey_of_not_mem l k v hm]
    apply List.Nodup.append h (List.nodup_singleton k)
    intro a ha hb
    rw [List.mem_singleton] at hb
    subst hb
    exact hm ha

theorem nodup_dictUpdate {α : Type} (u base : List (String × α))
    (h : (base.map Prod.fst).Nodup) : ((dictUpdate base u).map Prod.fst).Nodup := by
  induction u generalizing base with
  | nil => exact h
  | cons hd t ih =>
    obtain ⟨k, v⟩ := hd
    exact ih (setKey base k v) (nodup_setKey base k v h)

theorem nodup_flattenGo (l acc : List (String × Value))
    (h : (acc.map Prod.fst).Nodup) : ((flattenGo l acc).map Prod.fst).Nodup := by
  induction l, acc using flattenGo.induct with
  | case1 acc =>
    rw [flattenGo]
    exact h
  | case2 k d2 rest acc ih1 ih2 =>
    rw [flattenGo]
    exact ih2 (nodup_dictUpdate _ _ h)
  | case3 k v rest acc hnd ih =>
    rw [flattenGo]
    · exact ih (nodup_setKey _ _ _ h)
    · exact hnd

theorem lastLookup_eq_getKey?_of_nodup {α : Type} (l : List (String × α)) (q : String)
    (h : (l.map Prod.fst).Nodup) : lastLookup l q = getKey? l q := by
  induction l with
  | nil => rfl
  | cons hd t ih =>
    obtain ⟨k, v⟩ := hd
    simp only [List.map_cons, List.nodup_cons] at h
    by_cases hk : k = q
    · have hq : q ∉ t.map Prod.fst := hk ▸ h.1
      have : getKey? t q = none := by
        cases hg : getKey? t q with
        | none => rfl
        | some w =>
          exact absurd ((getKey?_isSome_iff_mem t q).mp (by simp [hg])) hq
      have hlt : lastLookup t q = none := (lastLookup_eq_none_iff t q).mpr this
      simp [lastLookup, getKey?, hk, hlt]
    · simp only [lastLookup, getKey?, ih h.2, if_neg hk]
      cases hg : getKey? t q <;> simp [hg, hk]

theorem lastLookup_mem {α : Type} (l : List (String × α)) (q : String) (v : α)
    (h : lastLookup l q = some v) : (q, v) ∈ l := by
  induction l with
  | nil => simp [lastLookup] at h
  | cons hd t ih =>
    obtain ⟨k, v1⟩ := hd
    simp only [lastLookup] at h
    cases ht : lastLookup t q with
    | some w =>
      rw [ht] at h
      cases h
      exact List.mem_cons_of_mem _ (ih ht)
    | none =>
      rw [ht] at h
      by_cases hk : k = q
      · rw [if_pos hk] at h
        cases h
        subst hk
        exact List.mem_cons_self _ _
      · rw [if_neg hk] at h
        cases h

theorem leafPairsSpec_not_dict (l : List (String × Value)) :
    ∀ p ∈ leafPairsSpec l, p.2.isDict = false := by
  induction l using leafPairsSpec.induct with
  | case1 =>
    intro p hp
    rw [leafPairsSpec] at hp
    exact absurd hp (List.not_mem_nil p)
  | case2 k d2 rest ih1 ih2 =>
    intro p hp
    rw [leafPairsSpec] at hp
    rcases List.mem_append.mp hp with hp | hp
    · exact ih1 p hp
    · exact ih2 p hp
  | case3 k v rest hnd ih =>
    intro p hp
    rw [leafPairsSpec] at hp
    · rcases List.mem_cons.mp hp with hp | hp
      · subst hp
        cases v with
        | vDict d2 => exact absurd rfl (hnd d2)
        | vNone => rfl
        | vInt n => rfl
        | vStr s => rfl
        | vBool b => rfl
        | vCfg c a => rfl
      · exact ih p hp
    · exact hnd

theorem isDict_false_of_guard (v : Value)
    (h : ∀ d2 : List (String × Value), v = Value.vDict d2 → False) :
    v.isDict = false := by
  cases v with
  | vDict d2 => exact absurd rfl (h d2)
  | vNone => rfl
  | vInt n => rfl
  | vStr s => rfl
  | vBool b => rfl
  | vCfg c a => rfl

theorem flattenGo_lookup (l acc : List (String × Value)) (q : String) :
    getKey? (flattenGo l acc) q =
      oOr (lastLookup (leafPairsSpec l) q) (getKey? acc q) := by
  induction l, acc using flattenGo.induct with
  | case1 acc =>
    rw [flattenGo, leafPairsSpec]
    rfl
  | case2 k d2 rest acc ih1 ih2 =>
    rw [flattenGo, leafPairsSpec]
    rw [ih2, getKey?_dictUpdate]
    have hnd := nodup_flattenGo d2 [] (by simp)
    have h2 : lastLookup (flattenGo d2 []) q = lastLookup (leafPairsSpec d2) q := by
      rw [lastLookup_eq_getKey?_of_nodup _ q hnd, ih1]
      simp [getKey?, oOr_none_right]
    rw [h2, lastLookup_append, oOr_assoc]
  | case3 k v rest acc hnd ih =>
    rw [flattenGo]
    · rw [leafPairsSpec]
      · rw [ih, getKey?_setKey]
        cases hr : lastLookup (leafPairsSpec rest) q with
        | some w => simp [lastLookup, hr, oOr]
        | none =>
          by_cases hk : k = q <;> simp [lastLookup, hr, oOr, hk]
      · exact hnd
    · exact hnd

theorem all_setKey {α : Type} (p : String × α → Bool) (l : List (String × α))
    (k : String) (v : α) (hl : l.all p = true) (hv : p (k, v) = true) :
    (setKey l k v).all p = true := by
  induction l with
  | nil => simp [setKey, hv]
  | cons hd t ih =>
    obtain ⟨k1, v1⟩ := hd
    rw [List.all_cons, Bool.and_eq_true] at hl
    by_cases hk : k1 = k
    · simp [setKey, hk, hv, hl.2]
    · simp [setKey, hk, hl.1, ih hl.2]

theorem all_dictUpdate {α : Type} (p : String × α → Bool) (u base : List (String × α))
    (hb : base.all p = true) (hu : u.all p = true) :
    (dictUpdate base u).all p = true := by
  induction u generalizing base with
  | nil => exact hb
  | cons hd t ih =>
    obtain ⟨k, v⟩ := hd
    rw [List.all_cons, Bool.and_eq_true] at hu
    exact ih (setKey base k v) (all_setKey p base k v hb hu.1) hu.2

theorem flattenGo_values_not_dict (l acc : List (String × Value))
    (h : acc.all (fun kv => !kv.2.isDict) = true) :
    (flattenGo l acc).all (fun kv => !kv.2.isDict) = true := by
  induction l, acc using flattenGo.induct with
  | case1 acc =>
    rw [flattenGo]
    exact h
  | case2 k d2 rest acc ih1 ih2 =>
    rw [flattenGo]
    exact ih2 (all_dictUpdate _ _ _ h (ih1 (by simp)))
  | case3 k v rest acc hnd ih =>
    rw [flattenGo]
    · apply ih
      apply all_setKey _ _ _ _ h
      simp [isDict_false_of_guard v hnd]
    · exact hnd

theorem isCfg_setattr (self : Value) (k : String) (v : Value) :
    (setattr self k v).isCfg = self.isCfg := by
  cases self <;> rfl

theorem getattr?_setattr_eq (self : Value) (k : String) (v : Value)
    (h : self.isCfg = true) : getattr? (setattr self k v) k = some v := by
  cases self with
  | vCfg c attrs => simp [setattr, getattr?, getKey?_setKey]
  | vNone => simp [Value.isCfg] at h
  | vInt n => simp [Value.isCfg] at h
  | vStr s => simp [Value.isCfg] at h
  | vBool b => simp [Value.isCfg] at h
  | vDict d => simp [Value.isCfg] at h

theorem getattr?_setattr_ne (self : Value) (k : String) (v : Value) (q : String)
    (h : ¬ k = q) : getattr? (setattr self k v) q = getattr? self q := by
  cases self with
  | vCfg c attrs => simp [setattr, getattr?, getKey?_setKey, h]
  | vNone => rfl
  | vInt n => rfl
  | vStr s => rfl
  | vBool b => rfl
  | vDict d => rfl

theorem hasattrInst_setattr_ne (self : Value) (k : String) (v : Value) (q : String)
    (h : ¬ k = q) : hasattrInst (setattr self k v) q = hasattrInst self q := by
  cases self with
  | vCfg c attrs => simp [setattr, hasattrInst, getKey?_setKey, h]
  | vNone => rfl
  | vInt n => rfl
  | vStr s => rfl
  | vBool b => rfl
  | vDict d => rfl

theorem updateGo_getattr_preserve (l : List (String × Value)) (self : Value)
    (ws : List String) (q : String) (h : getKey? l q = none) :
    getattr? (updateGo self l ws).1 q = getattr? self q := by
  induction l generalizing self ws with
  | nil => rfl
  | cons hd rest ih =>
    obtain ⟨k1, v1⟩ := hd
    simp only [getKey?] at h
    by_cases hk : k1 = q
    · simp [hk] at h
    · rw [if_neg hk] at h
      rw [updateGo, ih _ _ h, getattr?_setattr_ne self k1 v1 q hk]

theorem updateGo_getattr_last (l : List (String × Value)) (self : Value)
    (ws : List String) (q : String) (v : Value) (hc : self.isCfg = true)
    (h : lastLookup l q = some v) : getattr? (updateGo self l ws).1 q = some v := by
  induction l generalizing self ws with
  | nil => simp [lastLookup] at h
  | cons hd rest ih =>
    obtain ⟨k1, v1⟩ := hd
    simp only [lastLookup] at h
    cases hr : lastLookup rest q with
    | some w =>
      rw [hr] at h
      cases h
      rw [updateGo]
      exact ih (setattr self k1 v1) _ (by rw [isCfg_setattr]; exact hc) hr
    | none =>
      rw [hr] at h
      by_cases hk : k1 = q
      · rw [if_pos hk] at h
        cases h
        rw [updateGo]
        have hg : getKey? rest q = none := (lastLookup_eq_none_iff rest q).mp hr
        rw [updateGo_getattr_preserve rest _ _ q hg, hk]
        exact getattr?_setattr_eq self q _ hc
      · rw [if_neg hk] at h
        cases h

theorem updateGo_ws_mem (l : List (String × Value)) (self : Value)
    (ws : List String) (q : String) (h : q ∈ ws) : q ∈ (updateGo self l ws).2 := by
  induction l generalizing self ws with
  | nil =>
    simp only [updateGo]
    exact List.mem_reverse.mpr h
  | cons hd rest ih =>
    obtain ⟨k1, v1⟩ := hd
    rw [updateGo]
    apply ih
    by_cases hh : hasattrInst self k1
    · simp [hh, h]
    · simp [hh]
      exact Or.inr h

theorem updateGo_warn (l : List (String × Value)) (self : Value)
    (ws : List String) (q : String) (h : hasattrInst self q = false)
    (hm : (getKey? l q).isSome = true) : q ∈ (updateGo self l ws).2 := by
  induction l generalizing self ws with
  | nil => simp [getKey?] at hm
  | cons hd rest ih =>
    obtain ⟨k1, v1⟩ := hd
    by_cases hk : k1 = q
    · rw [updateGo, hk, h]
      exact updateGo_ws_mem _ _ _ _ (by simp)
    · simp only [getKey?, if_neg hk] at hm
      rw [updateGo]
      apply ih _ _ _ hm
      rw [hasattrInst_setattr_ne self k1 v1 q hk]
      exact h

theorem constructFields_eq (fields : List (String × Option Value))
    (args attrs : List (String × Value))
    (hkeys : attrs.map Prod.fst = fields.map Prod.fst)
    (hnd : (attrs.map Prod.fst).Nodup)
    (hargs : ∀ k ∈ attrs.map Prod.fst, getKey? args k = getKey? attrs k) :
    constructFields fields args = some attrs := by
  induction fields generalizing attrs with
  | nil =>
    cases attrs with
    | nil => rfl
    | cons ahd arest => simp at hkeys
  | cons fhd frest ih =>
    obtain ⟨fn, fd⟩ := fhd
    cases attrs with
    | nil => simp at hkeys
    | cons ahd arest =>
      obtain ⟨ak, av⟩ := ahd
      rw [List.map_cons, List.map_cons] at hkeys
      have h1 : ak = fn := (List.cons.injEq _ _ _ _ ▸ hkeys).1
      have h2 : arest.map Prod.fst = frest.map Prod.fst :=
        (List.cons.injEq _ _ _ _ ▸ hkeys).2
      rw [List.map_cons] at hnd
      have hnda : ak ∉ arest.map Prod.fst := (List.nodup_cons.mp hnd).1
      have hndr : (arest.map Prod.fst).Nodup := (List.nodup_cons.mp hnd).2
      have hmem : fn ∈ (((ak, av) :: arest).map Prod.fst) := by
        rw [List.map_cons, h1.symm]
        exact List.mem_cons_self _ _
      have hget : getKey? args fn = some av := by
        rw [hargs fn hmem]
        simp [getKey?, h1]
      simp only [constructFields, hget]
      have hargs2 : ∀ k ∈ arest.map Prod.fst, getKey? args k = getKey? arest k := by
        intro k hk
        have hne : ¬ ak = k := fun hh => hnda (hh ▸ hk)
        have := hargs k (by rw [List.map_cons]; exact List.mem_cons_of_mem _ hk)
        rw [this]
        simp [getKey?, hne]
      rw [ih arest h2 hndr hargs2]
      simp [h1]

theorem all_keys_are_fields (cls : ConfigClass) (attrs : List (String × Value))
    (hkeys : attrs.map Prod.fst = cls.fields.map Prod.fst) :
    attrs.all (fun kv => cls.fields.any (fun f => f.1 = kv.1)) = true := by
  apply List.all_eq_true.mpr
  intro kv hkv
  have hk : kv.1 ∈ cls.fields.map Prod.fst := hkeys ▸ List.mem_map_of_mem Prod.fst hkv
  obtain ⟨f, hf, hfe⟩ := List.mem_map.mp hk
  apply List.any_eq_true.mpr
  exact ⟨f, hf, by simp [hfe]⟩

theorem construct_self (cls : ConfigClass) (attrs : List (String × Value))
    (hkeys : attrs.map Prod.fst = cls.fields.map Prod.fst)
    (hnd : (attrs.map Prod.fst).Nodup) :
    construct cls attrs = some (Value.vCfg cls.clsName attrs) := by
  unfold construct
  rw [if_pos (all_keys_are_fields cls attrs hkeys)]
  rw [constructFields_eq cls.fields attrs attrs hkeys hnd (fun k _ => rfl)]
  rfl

theorem filter_hasattr_eq (cls : ConfigClass) (attrs : List (String × Value))
    (hkeys : attrs.map Prod.fst = cls.fields.map Prod.fst)
    (hdef : ∀ f ∈ cls.fields, f.2.isSome = true) :
    attrs.filter (fun kv => hasattrCls cls kv.1) = attrs := by
  apply List.filter_eq_self.mpr
  intro kv hkv
  have hk : kv.1 ∈ cls.fields.map Prod.fst := hkeys ▸ List.mem_map_of_mem Prod.fst hkv
  obtain ⟨f, hf, hfe⟩ := List.mem_map.mp hk
  unfold hasattrCls
  have hany : cls.fields.any (fun f => f.1 = kv.1 && f.2.isSome) = true :=
    List.any_eq_true.mpr ⟨f, hf, by simp [hfe, hdef f hf]⟩
  simp [hany]

theorem load_local (R : Registries) (fs : FileSystem) (hub : Hub)
    (path filename subfolder : String) (kwargs m : List (String × Value))
    (h : getKey? fs.files (joinPath [path, subfolder, filename]) = some m) :
    Config.load R fs hub path filename subfolder kwargs =
      Config.load_from_mapping R m kwargs := by
  simp [Config.load, resolve_pretrained_path, FileSystem.isfile, h]

theorem not_mem_keys_removeKey {α : Type} (l : List (String × α)) (k : String)
    (hnd : (l.map Prod.fst).Nodup) : k ∉ (removeKey l k).map Prod.fst := by
  induction l with
  | nil => simp [removeKey]
  | cons hd t ih =>
    obtain ⟨k1, v1⟩ := hd
    rw [List.map_cons, List.nodup_cons] at hnd
    by_cases hk : k1 = k
    · rw [removeKey, if_pos hk]
      exact hk ▸ hnd.1
    · rw [removeKey, if_neg hk, List.map_cons]
      intro hm
      rcases List.mem_cons.mp hm with hm | hm
      · exact hk hm.symm
      · exact ih hnd.2 hm

/-- C8: flatten_dict returns a single-level mapping — no dict-valued entries
survive — and its binding for any key equals the last leaf value written for
that key in the traversal order of the source loop (last-write-wins for key
collisions across nesting levels). -/
theorem C8_flatten_dict_leaf_last_write_wins (d : List (String × Value)) (q : String) :
    getKey? (flatten_dict d) q = lastLookup (leafPairsSpec d) q ∧
    (flatten_dict d).all (fun kv => !kv.2.isDict) = true := by
  constructor
  · rw [flatten_dict, flattenGo_lookup]
    rw [show getKey? ([] : List (String × Value)) q = none from rfl, oOr_none_right]
  · exact flattenGo_values_not_dict d [] rfl

/-- C9: for a config instance whose attribute dict binds k (uniquely, as for
every genuine Python object dict), Config.pop returns the bound value and
removes the attribute from the instance itself, so the key is gone from
dict()/keys() afterwards — Config.dict hands out __dict__ by reference. -/
theorem C9_pop_returns_value_and_removes_key (c : String)
    (attrs : List (String × Value)) (k : String) (v dflt : Value)
    (hnd : (attrs.map Prod.fst).Nodup) (hv : getKey? attrs k = some v) :
    (Config.pop (Value.vCfg c attrs) k dflt).1 = v ∧
    k ∉ Config.keys (Config.pop (Value.vCfg c attrs) k dflt).2 ∧
    (getKey? (Config.dict (Config.pop (Value.vCfg c attrs) k dflt).2) k) = none := by
  refine ⟨?_, ?_, ?_⟩
  · rw [Config.pop, hv]
    rfl
  · rw [Config.pop]
    exact not_mem_keys_removeKey attrs k hnd
  · rw [Config.pop]
    cases hg : getKey? (Config.dict (Value.vCfg c (removeKey attrs k))) k with
    | none => rfl
    | some w =>
      have hmem := (getKey?_isSome_iff_mem (removeKey attrs k) k).mp (by
        rw [show Config.dict (Value.vCfg c (removeKey attrs k)) = removeKey attrs k from rfl] at hg
        rw [hg]
        rfl)
      exact absurd hmem (not_mem_keys_removeKey attrs k hnd)

theorem C9_pop_witness :
    ((([("name", Value.vStr "x"), ("config_type", Value.vStr "base")] :
        List (String × Value)).map Prod.fst).Nodup ∧
      getKey? [("name", Value.vStr "x"), ("config_type", Value.vStr "base")] "name" =
        some (Value.vStr "x")) ∧
    ((Config.pop (Value.vCfg "Config"
        [("name", Value.vStr "x"), ("config_type", Value.vStr "base")])
        "name" Value.vNone).1 = Value.vStr "x" ∧
      "name" ∉ Config.keys (Config.pop (Value.vCfg "Config"
        [("name", Value.vStr "x"), ("config_type", Value.vStr "base")])
        "name" Value.vNone).2 ∧
      (getKey? (Config.dict (Config.pop (Value.vCfg "Config"
        [("name", Value.vStr "x"), ("config_type", Value.vStr "base")])
        "name" Value.vNone).2) "name") = none) :=
  ⟨⟨by decide, rfl⟩,
   C9_pop_returns_value_and_removes_key "Config"
     [("name", Value.vStr "x"), ("config_type", Value.vStr "base")]
     "name" (Value.vStr "x") Value.vNone (by decide) rfl⟩

/-- C10: Config.update mutates the caller-supplied mapping d — d.update(kwargs)
runs on the caller's dict before the merge loop — and Config.from_dict likewise
mutates its dict_config argument with the keyword overrides (all of them except
the popped strict flag): a keyword binding absent from d beforehand is visible
in d afterwards, so the mapping the caller passed in is no longer equal to what
they passed. -/
theorem C10_update_and_from_dict_mutate_argument (self : Value) (cls : ConfigClass)
    (d kwargs : List (String × Value)) (k : String) (v : Value)
    (hfresh : getKey? d k = none) (hkw : lastLookup kwargs k = some v)
    (hs : k ≠ "strict") :
    (getKey? (Config.update self d kwargs).2.1 k = some v ∧
      (Config.update self d kwargs).2.1 ≠ d) ∧
    (getKey? (Config.from_dict cls d kwargs).2 k = some v ∧
      (Config.from_dict cls d kwargs).2 ≠ d) := by
  have h1 : getKey? (dictUpdate d kwargs) k = some v := by
    rw [getKey?_dictUpdate, hkw]
    rfl
  have h2 : getKey? (dictUpdate d (removeKey kwargs "strict")) k = some v := by
    rw [getKey?_dictUpdate, lastLookup_removeKey_ne kwargs "strict" k hs, hkw]
    rfl
  refine ⟨⟨h1, ?_⟩, ⟨h2, ?_⟩⟩
  · intro he
    rw [show (Config.update self d kwargs).2.1 = dictUpdate d kwargs from rfl] at he
    rw [he, hfresh] at h1
    exact Option.noConfusion h1
  · intro he
    rw [show (Config.from_dict cls d kwargs).2 =
          dictUpdate d (removeKey kwargs "strict") from rfl] at he
    rw [he, hfresh] at h2
    exact Option.noConfusion h2

theorem C10_mutation_witness :
    (getKey? [("a", Value.vInt 1)] "b" = none ∧
      lastLookup [("b", Value.vInt 2)] "b" = some (Value.vInt 2) ∧
      "b" ≠ "strict") ∧
    ((getKey? (Config.update (Value.vCfg "Config" [("name", Value.vNone)])
        [("a", Value.vInt 1)] [("b", Value.vInt 2)]).2.1 "b" = some (Value.vInt 2) ∧
      (Config.update (Value.vCfg "Config" [("name", Value.vNone)])
        [("a", Value.vInt 1)] [("b", Value.vInt 2)]).2.1 ≠ [("a", Value.vInt 1)]) ∧
     (getKey? (Config.from_dict ConfigCls
        [("a", Value.vInt 1)] [("b", Value.vInt 2)]).2 "b" = some (Value.vInt 2) ∧
      (Config.from_dict ConfigCls
        [("a", Value.vInt 1)] [("b", Value.vInt 2)]).2 ≠ [("a", Value.vInt 1)])) :=
  ⟨⟨rfl, rfl, by decide⟩,
   C10_update_and_from_dict_mutate_argument
     (Value.vCfg "Config" [("name", Value.vNone)]) ConfigCls
     [("a", Value.vInt 1)] [("b", Value.vInt 2)] "b" (Value.vInt 2)
     rfl rfl (by decide)⟩

/-- C7 counterexample: config_type is not immutable — Config.update applied to
a base Config constructed with config_type "base" and given an overrides
mapping binding config_type rewrites it to "model". -/
theorem C7_counterexample :
    getattr? (Config.update
      (Value.vCfg "Config" [("name", Value.vStr "x"), ("config_type", Value.vStr "base")])
      [("config_type", Value.vStr "model")] []).1 "config_type" =
      some (Value.vStr "model") ∧
    some (Value.vStr "model") ≠ some (Value.vStr "base") := by
  constructor
  · rfl
  · simp

/-- C7 amended: config_type is an ordinary mutable attribute.  It is preserved
by Config.update exactly when the merged overrides mapping does not bind the
key config_type; an override that does bind it rewrites it like any other
field (see the counterexample). -/
theorem C7_config_type_preserved_without_override (self : Value)
    (d kwargs : List (String × Value))
    (h : getKey? (dictUpdate d kwargs) "config_type" = none) :
    getattr? (Config.update self d kwargs).1 "config_type" =
      getattr? self "config_type" := by
  exact updateGo_getattr_preserve (dictUpdate d kwargs) self [] "config_type" h

theorem C7_preservation_witness :
    (getKey? (dictUpdate [("device", Value.vStr "cpu")] ([] : List (String × Value)))
      "config_type" = none) ∧
    getattr? (Config.update
      (Value.vCfg "TrainConfig"
        [("name", Value.vNone), ("config_type", Value.vStr "train")])
      [("device", Value.vStr "cpu")] []).1 "config_type" =
      getattr? (Value.vCfg "TrainConfig"
        [("name", Value.vNone), ("config_type", Value.vStr "train")]) "config_type" :=
  ⟨rfl,
   C7_config_type_preserved_without_override
     (Value.vCfg "TrainConfig" [("name", Value.vNone), ("config_type", Value.vStr "train")])
     [("device", Value.vStr "cpu")] [] rfl⟩

/-- C6 counterexample: updating a TrainConfig whose optimizer attribute holds
an OptimizerConfig instance with an overrides mapping binding optimizer to a
plain dict of one field wholesale-replaces the nested config with that dict;
the other nested fields (weight_decay, name, config_type) are not retained,
so no field-by-field merge happens. -/
theorem C6_counterexample :
    getattr? (Config.update
      (Value.vCfg "TrainConfig"
        [("name", Value.vStr "t"), ("config_type", Value.vStr "train"),
         ("device", Value.vStr "cuda"),
         ("optimizer", Value.vCfg "OptimizerConfig"
           [("name", Value.vStr "adam"), ("config_type", Value.vStr "optimizer"),
            ("lr", Value.vInt 1), ("weight_decay", Value.vInt 0)]),
         ("batch_size", Value.vInt 8), ("metrics", Value.vNone),
         ("metrics_kwargs", Value.vNone), ("num_train_epochs", Value.vInt 3),
         ("checkpoints_dir", Value.vNone)])
      [("optimizer", Value.vDict [("lr", Value.vInt 2)])] []).1 "optimizer" =
      some (Value.vDict [("lr", Value.vInt 2)]) ∧
    some (Value.vDict [("lr", Value.vInt 2)]) ≠
      some (Value.vCfg "OptimizerConfig"
        [("name", Value.vStr "adam"), ("config_type", Value.vStr "optimizer"),
         ("lr", Value.vInt 2), ("weight_decay", Value.vInt 0)]) := by
  constructor
  · rfl
  · simp

/-- C6 amended: the merge loop wholesale-assigns with setattr — the attribute
named by an override key ends up holding exactly the override value written
last for that key, whether the previous value was a nested Config instance or
not; no field-by-field merge of nested configs takes place. -/
theorem C6_update_wholesale_assigns (self : Value) (d kwargs : List (String × Value))
    (k : String) (v : Value) (hc : self.isCfg = true)
    (h : lastLookup (dictUpdate d kwargs) k = some v) :
    getattr? (Config.update self d kwargs).1 k = some v := by
  exact updateGo_getattr_last (dictUpdate d kwargs) self [] k v hc h

theorem C6_wholesale_witness :
    ((Value.vCfg "TrainConfig"
        [("name", Value.vNone), ("config_type", Value.vStr "train"),
         ("optimizer", Value.vCfg "OptimizerConfig"
           [("lr", Value.vInt 1), ("weight_decay", Value.vInt 0)])]).isCfg = true ∧
      lastLookup (dictUpdate [("optimizer", Value.vDict [("lr", Value.vInt 2)])]
        ([] : List (String × Value))) "optimizer" =
        some (Value.vDict [("lr", Value.vInt 2)])) ∧
    getattr? (Config.update
      (Value.vCfg "TrainConfig"
        [("name", Value.vNone), ("config_type", Value.vStr "train"),
         ("optimizer", Value.vCfg "OptimizerConfig"
           [("lr", Value.vInt 1), ("weight_decay", Value.vInt 0)])])
      [("optimizer", Value.vDict [("lr", Value.vInt 2)])] []).1 "optimizer" =
      some (Value.vDict [("lr", Value.vInt 2)]) :=
  ⟨⟨rfl, rfl⟩,
   C6_update_wholesale_assigns
     (Value.vCfg "TrainConfig"
       [("name", Value.vNone), ("config_type", Value.vStr "train"),
        ("optimizer", Value.vCfg "OptimizerConfig"
          [("lr", Value.vInt 1), ("weight_decay", Value.vInt 0)])])
     [("optimizer", Value.vDict [("lr", Value.vInt 2)])] []
     "optimizer" (Value.vDict [("lr", Value.vInt 2)]) rfl rfl⟩

/-- C1 counterexample: merging an overrides mapping with an unknown key under
strict=True does not fail.  from_dict on ModelConfig with keyword arguments
strict=True and bogus_field=1 returns a constructed instance — the unknown
key is silently filtered out before construction and no error of any kind is
raised, contradicting the claimed UnknownConfigFieldError. -/
theorem C1_counterexample :
    (Config.from_dict ModelConfigCls [("name", Value.vStr "x")]
      [("strict", Value.vBool true), ("bogus_field", Value.vInt 1)]).1 =
    some (Value.vCfg "ModelConfig"
      [("name", Value.vStr "x"), ("config_type", Value.vStr "model")]) := rfl

/-- C1 amended: the strict flag is accepted but has no effect — from_dict pops
strict from the keyword arguments and never consults it, so its result is
identical for strict=True and strict=False, with unknown keys silently
dropped before construction in both cases; Config.update, for its part,
unconditionally assigns every override key, emitting a warning for an
unknown key while still setting the attribute. -/
theorem C1_strict_flag_ignored_warn_and_set (cls : ConfigClass) (self : Value)
    (dA dB kwargs : List (String × Value)) (b b' : Bool) (k : String) (v : Value)
    (hc : self.isCfg = true) (hna : hasattrInst self k = false)
    (hlast : lastLookup (dictUpdate dB kwargs) k = some v) :
    Config.from_dict cls dA (("strict", Value.vBool b) :: kwargs) =
      Config.from_dict cls dA (("strict", Value.vBool b') :: kwargs) ∧
    getattr? (Config.update self dB kwargs).1 k = some v ∧
    k ∈ (Config.update self dB kwargs).2.2 := by
  have hsome : (getKey? (dictUpdate dB kwargs) k).isSome = true := by
    cases hg : getKey? (dictUpdate dB kwargs) k with
    | some w => rfl
    | none =>
      rw [(lastLookup_eq_none_iff _ _).mpr hg] at hlast
      exact Option.noConfusion hlast
  refine ⟨rfl, ?_, ?_⟩
  · exact updateGo_getattr_last (dictUpdate dB kwargs) self [] k v hc hlast
  · exact updateGo_warn (dictUpdate dB kwargs) self [] k hna hsome

theorem C1_strict_witness :
    ((Value.vCfg "Config"
        [("name", Value.vStr "x"), ("config_type", Value.vStr "base")]).isCfg = true ∧
      hasattrInst (Value.vCfg "Config"
        [("name", Value.vStr "x"), ("config_type", Value.vStr "base")]) "bogus_field" =
        false ∧
      lastLookup (dictUpdate ([] : List (String × Value)) [("bogus_field", Value.vInt 1)])
        "bogus_field" = some (Value.vInt 1)) ∧
    (Config.from_dict ConfigCls [("name", Value.vStr "y")]
        (("strict", Value.vBool true) :: [("bogus_field", Value.vInt 1)]) =
      Config.from_dict ConfigCls [("name", Value.vStr "y")]
        (("strict", Value.vBool false) :: [("bogus_field", Value.vInt 1)]) ∧
     getattr? (Config.update
        (Value.vCfg "Config" [("name", Value.vStr "x"), ("config_type", Value.vStr "base")])
        [] [("bogus_field", Value.vInt 1)]).1 "bogus_field" = some (Value.vInt 1) ∧
     "bogus_field" ∈ (Config.update
        (Value.vCfg "Config" [("name", Value.vStr "x"), ("config_type", Value.vStr "base")])
        [] [("bogus_field", Value.vInt 1)]).2.2) :=
  ⟨⟨rfl, rfl, rfl⟩,
   C1_strict_flag_ignored_warn_and_set ConfigCls
     (Value.vCfg "Config" [("name", Value.vStr "x"), ("config_type", Value.vStr "base")])
     [("name", Value.vStr "y")] [] [("bogus_field", Value.vInt 1)]
     true false "bogus_field" (Value.vInt 1) rfl rfl rfl⟩

/-!
Sample registry content used by concrete instantiations: one model entry under
its snake-case key, as the register_model decorator in
src/hezar/models/text_classification/distilbert/distilbert_text_classification.py
registers it.
-/

def sampleDistilBertConfigCls : ConfigClass :=
  ⟨"DistilBertTextClassificationConfig",
   [("name", some Value.vNone), ("config_type", some (Value.vStr "model")),
    ("num_labels", some Value.vNone)]⟩

def sampleRegistries : Registries :=
  ⟨[("distil_bert", ⟨"DistilBertModule", ModelConfigCls⟩),
    ("distilbert_text_classification",
      ⟨"DistilBertTextClassification", sampleDistilBertConfigCls⟩)],
   [], [], [], []⟩

/-- Either-or success indicator for registry lookups. -/
def exceptOk {ε β : Type} : Except ε β → Bool
  | .ok _ => true
  | .error _ => false

/-- C3 counterexample: the two class-resolution paths do not normalize alike.
With a registry holding the key distil_bert, resolving the module class for
the spelling DistilBert succeeds (get_module_class snake-cases the name
first), while resolving the config class for the same spelling fails with a
key error (get_module_config_class looks the raw name up). -/
theorem C3_counterexample :
    get_module_class sampleRegistries "DistilBert" "model" =
      Except.ok "DistilBertModule" ∧
    get_module_config_class sampleRegistries "DistilBert" "model" =
      Except.error (LookupError.keyError "DistilBert") :=
  ⟨rfl, rfl⟩

theorem lookup_agree (reg : List (String × RegistryEntry)) (name : String) :
    exceptOk (match getKey? reg name with
      | none => Except.error (LookupError.keyError name)
      | some e => Except.ok e.module_class) =
    exceptOk (match getKey? reg name with
      | none => Except.error (LookupError.keyError name)
      | some e => Except.ok e.config_class) := by
  cases getKey? reg name <;> rfl

/-- C3 amended: get_module_class normalizes the name with snake_case before
the registry lookup while get_module_config_class does not; consequently the
two lookups are only guaranteed to succeed or fail together for names already
in snake-case form (snake_case name = name), for any of the four registry
kinds both functions handle. -/
theorem C3_lookups_agree_on_snake_case_names (R : Registries) (name ct : String)
    (hsnake : snake_case name = name)
    (hct : ct = ConfigType.MODEL ∨ ct = ConfigType.PREPROCESSOR ∨
      ct = ConfigType.DATASET ∨ ct = ConfigType.EMBEDDING) :
    exceptOk (get_module_class R name ct) =
      exceptOk (get_module_config_class R name ct) := by
  rcases hct with h | h | h | h <;> subst h <;>
    simp only [get_module_class, get_module_config_class] <;> rw [hsnake]
  · exact lookup_agree R.models_registry name
  · exact lookup_agree R.preprocessors_registry name
  · exact lookup_agree R.datasets_registry name
  · exact lookup_agree R.embeddings_registry name

theorem C3_agree_witness :
    (snake_case "distil_bert" = "distil_bert" ∧
      ("model" = ConfigType.MODEL ∨ "model" = ConfigType.PREPROCESSOR ∨
        "model" = ConfigType.DATASET ∨ "model" = ConfigType.EMBEDDING)) ∧
    exceptOk (get_module_class sampleRegistries "distil_bert" "model") =
      exceptOk (get_module_config_class sampleRegistries "distil_bert" "model") :=
  ⟨⟨rfl, Or.inl rfl⟩,
   C3_lookups_agree_on_snake_case_names sampleRegistries "distil_bert" "model"
     rfl (Or.inl rfl)⟩


theorem clsName_construct (cls : ConfigClass) (args : List (String × Value))
    (c0 : Value) (h : construct cls args = some c0) : c0.clsName = cls.clsName := by
  unfold construct at h
  split_ifs at h
  cases hcf : constructFields cls.fields args with
  | none =>
    rw [hcf] at h
    exact Option.noConfusion h
  | some attrs =>
    rw [hcf] at h
    cases h
    rfl

/-- C4: whenever the post-fetch phase of load succeeds, it has read name and
config_type from the parsed mapping as strings, resolved the concrete config
class registered for that (config_type, name) pair through
get_module_config_class, and the returned instance carries exactly that
registered class — the registered subclass, not the base Config, whenever a
subclass is what the registry holds. -/
theorem C4_load_returns_registered_class (R : Registries)
    (m kwargs : List (String × Value)) (c : Value)
    (h : Config.load_from_mapping R m kwargs = Except.ok c) :
    ∃ nm ct cls, getKey? m "name" = some (Value.vStr nm) ∧
      getKey? m "config_type" = some (Value.vStr ct) ∧
      get_module_config_class R nm ct = Except.ok cls ∧
      c.clsName = cls.clsName := by
  unfold Config.load_from_mapping at h
  split at h
  · exact Except.noConfusion h
  next nv hn =>
    split at h
    · exact Except.noConfusion h
    next ctv hct =>
      split at h
      next nm ct =>
        split at h
        · exact Except.noConfusion h
        · exact Except.noConfusion h
        next cls hcl =>
          split at h
          · exact Except.noConfusion h
          next c0 hfd =>
            cases h
            have hcon : construct cls ((dictUpdate m (removeKey
                (("strict", Value.vBool false) :: kwargs) "strict")).filter
                (fun kv => hasattrCls cls kv.1)) = some c := hfd
            exact ⟨nm, ct, cls, hn, hct, hcl, clsName_construct cls _ c hcon⟩
      next hnot =>
        exact Except.noConfusion h

theorem C4_polymorphic_load_witness :
    (Config.load_from_mapping sampleRegistries
      [("name", Value.vStr "distilbert_text_classification"),
       ("config_type", Value.vStr "model"), ("num_labels", Value.vInt 2)] [] =
      Except.ok (Value.vCfg "DistilBertTextClassificationConfig"
        [("name", Value.vStr "distilbert_text_classification"),
         ("config_type", Value.vStr "model"), ("num_labels", Value.vInt 2)])) ∧
    (∃ nm ct cls,
      getKey? [("name", Value.vStr "distilbert_text_classification"),
        ("config_type", Value.vStr "model"), ("num_labels", Value.vInt 2)] "name" =
        some (Value.vStr nm) ∧
      getKey? [("name", Value.vStr "distilbert_text_classification"),
        ("config_type", Value.vStr "model"), ("num_labels", Value.vInt 2)] "config_type" =
        some (Value.vStr ct) ∧
      get_module_config_class sampleRegistries nm ct = Except.ok cls ∧
      (Value.vCfg "DistilBertTextClassificationConfig"
        [("name", Value.vStr "distilbert_text_classification"),
         ("config_type", Value.vStr "model"),
         ("num_labels", Value.vInt 2)]).clsName = cls.clsName) :=
  ⟨rfl,
   C4_load_returns_registered_class sampleRegistries
     [("name", Value.vStr "distilbert_text_classification"),
      ("config_type", Value.vStr "model"), ("num_labels", Value.vInt 2)] []
     (Value.vCfg "DistilBertTextClassificationConfig"
       [("name", Value.vStr "distilbert_text_classification"),
        ("config_type", Value.vStr "model"), ("num_labels", Value.vInt 2)]) rfl⟩

/-- C5: when the resolved location is an existing local directory and the
expected config file is not present there, Config.load fails with the
config-file-missing error before any hub access: the result is this error for
every possible hub content, including a hub that does carry a same-named
repository with the requested file. -/
theorem C5_local_dir_missing_config_fatal (R : Registries) (fs : FileSystem)
    (hub : Hub) (path filename subfolder : String) (kwargs : List (String × Value))
    (hdir : fs.isdir (resolve_pretrained_path path) = true)
    (hmiss : fs.isfile
      (joinPath [resolve_pretrained_path path, subfolder, filename]) = false) :
    Config.load R fs hub path filename subfolder kwargs =
      Except.error (LoadError.configFileMissing (resolve_pretrained_path path) filename) := by
  simp [Config.load, hdir, hmiss]

theorem C5_never_falls_back_witness :
    ((FileSystem.mk [] ["d"]).isdir (resolve_pretrained_path "d") = true ∧
      (FileSystem.mk [] ["d"]).isfile
        (joinPath [resolve_pretrained_path "d", "", "config.yaml"]) = false) ∧
    Config.load sampleRegistries (FileSystem.mk [] ["d"])
      (Hub.mk [(("d", "", "config.yaml"),
        [("name", Value.vStr "distilbert_text_classification"),
         ("config_type", Value.vStr "model")])])
      "d" "config.yaml" "" [] =
      Except.error (LoadError.configFileMissing (resolve_pretrained_path "d") "config.yaml") :=
  ⟨⟨rfl, rfl⟩,
   C5_local_dir_missing_config_fatal sampleRegistries (FileSystem.mk [] ["d"])
     (Hub.mk [(("d", "", "config.yaml"),
       [("name", Value.vStr "distilbert_text_classification"),
        ("config_type", Value.vStr "model")])])
     "d" "config.yaml" "" [] rfl rfl⟩

theorem yamlizeFieldsF_id (fuel : Nat) :
    ∀ l : List (String × Value), serializableFields l = true →
      yamlizeFieldsF fuel l = l := by
  induction fuel with
  | zero =>
    intro l _
    rfl
  | succ fuel ih =>
    intro l hs
    cases l with
    | nil => rfl
    | cons hd rest =>
      obtain ⟨k, v⟩ := hd
      cases v with
      | vNone =>
        simp only [serializableFields] at hs
        simp only [yamlizeFieldsF, ih rest hs]
      | vInt n =>
        simp only [serializableFields] at hs
        simp only [yamlizeFieldsF, ih rest hs]
      | vStr s =>
        simp only [serializableFields] at hs
        simp only [yamlizeFieldsF, ih rest hs]
      | vBool b =>
        simp only [serializableFields] at hs
        simp only [yamlizeFieldsF, ih rest hs]
      | vDict d2 =>
        simp only [serializableFields, Bool.and_eq_true] at hs
        simp only [yamlizeFieldsF, ih d2 hs.1, ih rest hs.2]
      | vCfg c a =>
        simp only [serializableFields] at hs
        exact Bool.noConfusion hs

theorem yamlizeFields_id (l : List (String × Value))
    (h : serializableFields l = true) : yamlizeFields l = l :=
  yamlizeFieldsF_id (sizeW l) l h

theorem yamlizeFieldsF_congr (f1 : Nat) :
    ∀ (f2 : Nat) (l : List (String × Value)), sizeW l ≤ f1 → sizeW l ≤ f2 →
      yamlizeFieldsF f1 l = yamlizeFieldsF f2 l := by
  induction f1 with
  | zero =>
    intro f2 l h1 _
    cases l with
    | nil =>
      cases f2 with
      | zero => rfl
      | succ g => rfl
    | cons hd rest =>
      obtain ⟨k, v⟩ := hd
      cases v <;> simp [sizeW] at h1
  | succ f1 ih =>
    intro f2 l h1 h2
    cases l with
    | nil =>
      cases f2 with
      | zero => rfl
      | succ g => rfl
    | cons hd rest =>
      obtain ⟨k, v⟩ := hd
      cases f2 with
      | zero =>
        cases v <;> simp [sizeW] at h2
      | succ g =>
        cases v with
        | vNone =>
          simp only [sizeW] at h1 h2
          simp only [yamlizeFieldsF]
          rw [ih g rest (by omega) (by omega)]
        | vInt n =>
          simp only [sizeW] at h1 h2
          simp only [yamlizeFieldsF]
          rw [ih g rest (by omega) (by omega)]
        | vStr s =>
          simp only [sizeW] at h1 h2
          simp only [yamlizeFieldsF]
          rw [ih g rest (by omega) (by omega)]
        | vBool b =>
          simp only [sizeW] at h1 h2
          simp only [yamlizeFieldsF]
          rw [ih g rest (by omega) (by omega)]
        | vDict d2 =>
          simp only [sizeW] at h1 h2
          simp only [yamlizeFieldsF]
          rw [ih g rest (by omega) (by omega), ih g d2 (by omega) (by omega)]
        | vCfg c a =>
          simp only [sizeW] at h1 h2
          simp only [yamlizeFieldsF]
          rw [ih g rest (by omega) (by omega), ih g a (by omega) (by omega)]

/-- Any recursion bound at least sizeW computes the same conversion as the
bound Config.save uses: the fuel never truncates the tree. -/
theorem yamlizeFieldsF_eq_yamlizeFields (fuel : Nat) (l : List (String × Value))
    (h : sizeW l ≤ fuel) : yamlizeFieldsF fuel l = yamlizeFields l :=
  yamlizeFieldsF_congr fuel (sizeW l) l h (Nat.le_refl _)

theorem save_files_lookup (self : Value) (save_dir filename subfolder : String)
    (fs : FileSystem) :
    getKey? (Config.save self save_dir filename subfolder fs).1.files
      (joinPath [save_dir, subfolder, filename]) =
      some (yamlizeFields ((Config.dict self).filter (fun kv => !kv.2.isNone))) := by
  simp only [Config.save]
  rw [getKey?_setKey]
  simp

/-- C2 counterexample: the round trip does not hold for every Config instance
with non-None serializable fields.  An OptimizerConfig with all four fields
set saves cleanly, but loading the written file fails with a ValueError —
get_module_config_class handles only the model / preprocessor / dataset /
embedding kinds, and config_type "optimizer" is none of them — so no config
equal to the saved one is ever returned. -/
theorem C2_counterexample :
    Config.load sampleRegistries
      (Config.save (Value.vCfg "OptimizerConfig"
        [("name", Value.vStr "adam"), ("config_type", Value.vStr "optimizer"),
         ("lr", Value.vInt 1), ("weight_decay", Value.vInt 0)])
        "d" "config.yaml" "" (FileSystem.mk [] [])).1
      (Hub.mk []) "d" "config.yaml" "" [] =
      Except.error (LoadError.invalidType "optimizer") ∧
    Config.load sampleRegistries
      (Config.save (Value.vCfg "OptimizerConfig"
        [("name", Value.vStr "adam"), ("config_type", Value.vStr "optimizer"),
         ("lr", Value.vInt 1), ("weight_decay", Value.vInt 0)])
        "d" "config.yaml" "" (FileSystem.mk [] [])).1
      (Hub.mk []) "d" "config.yaml" "" [] ≠
      Except.ok (Value.vCfg "OptimizerConfig"
        [("name", Value.vStr "adam"), ("config_type", Value.vStr "optimizer"),
         ("lr", Value.vInt 1), ("weight_decay", Value.vInt 0)]) := by
  have hfile := save_files_lookup (Value.vCfg "OptimizerConfig"
    [("name", Value.vStr "adam"), ("config_type", Value.vStr "optimizer"),
     ("lr", Value.vInt 1), ("weight_decay", Value.vInt 0)])
    "d" "config.yaml" "" (FileSystem.mk [] [])
  rw [show (Config.dict (Value.vCfg "OptimizerConfig"
      [("name", Value.vStr "adam"), ("config_type", Value.vStr "optimizer"),
       ("lr", Value.vInt 1), ("weight_decay", Value.vInt 0)])).filter
      (fun kv => !kv.2.isNone) =
      [("name", Value.vStr "adam"), ("config_type", Value.vStr "optimizer"),
       ("lr", Value.vInt 1), ("weight_decay", Value.vInt 0)] from rfl] at hfile
  rw [yamlizeFields_id _ (by simp [serializableFields])] at hfile
  have hload := load_local sampleRegistries
    (Config.save (Value.vCfg "OptimizerConfig"
      [("name", Value.vStr "adam"), ("config_type", Value.vStr "optimizer"),
       ("lr", Value.vInt 1), ("weight_decay", Value.vInt 0)])
      "d" "config.yaml" "" (FileSystem.mk [] [])).1
    (Hub.mk []) "d" "config.yaml" "" []
    [("name", Value.vStr "adam"), ("config_type", Value.vStr "optimizer"),
     ("lr", Value.vInt 1), ("weight_decay", Value.vInt 0)] hfile
  constructor
  · rw [hload]
    rfl
  · rw [hload]
    intro h
    have he : Config.load_from_mapping sampleRegistries
        [("name", Value.vStr "adam"), ("config_type", Value.vStr "optimizer"),
         ("lr", Value.vInt 1), ("weight_decay", Value.vInt 0)] [] =
        Except.error (LoadError.invalidType "optimizer") := rfl
    rw [he] at h
    exact Except.noConfusion h

/-- C2 amended: the round trip holds for every config whose class is reachable
through the registry and whose field values are serializable: if every field
of the class has a default, the instance is well-formed (its attribute dict
lists exactly the class fields, keys distinct) with all values non-None and
serializable — scalars or plain dicts thereof, no nested config objects,
which YAML turns into plain mappings — and the registry resolves the name
and config_type recorded in the instance back to that same class, then
saving to a directory and loading from it returns a config equal
field-for-field to the original. -/
theorem C2_save_load_roundtrip (R : Registries) (fs : FileSystem) (hub : Hub)
    (cls : ConfigClass) (attrs : List (String × Value))
    (save_dir filename subfolder nm ct : String)
    (hnd : (cls.fields.map Prod.fst).Nodup)
    (hkeys : attrs.map Prod.fst = cls.fields.map Prod.fst)
    (hdef : ∀ f ∈ cls.fields, f.2.isSome = true)
    (hnn : attrs.all (fun kv => !kv.2.isNone) = true)
    (hser : serializableFields attrs = true)
    (hname : getKey? attrs "name" = some (Value.vStr nm))
    (hct : getKey? attrs "config_type" = some (Value.vStr ct))
    (hreg : get_module_config_class R nm ct = Except.ok cls) :
    Config.load R
      (Config.save (Value.vCfg cls.clsName attrs) save_dir filename subfolder fs).1
      hub save_dir filename subfolder [] =
      Except.ok (Value.vCfg cls.clsName attrs) := by
  have hnda : (attrs.map Prod.fst).Nodup := hkeys ▸ hnd
  have hm : yamlizeFields ((Config.dict (Value.vCfg cls.clsName attrs)).filter
      (fun kv => !kv.2.isNone)) = attrs := by
    rw [Config.dict]
    rw [List.filter_eq_self.mpr (List.all_eq_true.mp hnn)]
    exact yamlizeFields_id attrs hser
  have hfile : getKey?
      (Config.save (Value.vCfg cls.clsName attrs) save_dir filename subfolder fs).1.files
      (joinPath [save_dir, subfolder, filename]) = some attrs := by
    simp only [Config.save, hm]
    rw [getKey?_setKey]
    simp
  rw [load_local R _ hub save_dir filename subfolder [] attrs hfile]
  have hfd : (Config.from_dict cls attrs [("strict", Value.vBool false)]).1 =
      some (Value.vCfg cls.clsName attrs) := by
    simp only [Config.from_dict]
    rw [show removeKey [("strict", Value.vBool false)] "strict" =
      ([] : List (String × Value)) from rfl]
    rw [show dictUpdate attrs ([] : List (String × Value)) = attrs from rfl]
    rw [filter_hasattr_eq cls attrs hkeys hdef]
    exact construct_self cls attrs hkeys hnda
  simp only [Config.load_from_mapping, hname, hct, hreg, hfd]

theorem C2_roundtrip_witness :
    (((ModelConfigCls.fields.map Prod.fst).Nodup ∧
      ([("name", Value.vStr "distil_bert"), ("config_type", Value.vStr "model")].map
        Prod.fst) = ModelConfigCls.fields.map Prod.fst ∧
      (∀ f ∈ ModelConfigCls.fields, f.2.isSome = true) ∧
      ([("name", Value.vStr "distil_bert"),
        ("config_type", Value.vStr "model")].all (fun kv => !kv.2.isNone)) = true ∧
      serializableFields [("name", Value.vStr "distil_bert"),
        ("config_type", Value.vStr "model")] = true) ∧
      getKey? [("name", Value.vStr "distil_bert"), ("config_type", Value.vStr "model")]
        "name" = some (Value.vStr "distil_bert") ∧
      getKey? [("name", Value.vStr "distil_bert"), ("config_type", Value.vStr "model")]
        "config_type" = some (Value.vStr "model") ∧
      get_module_config_class sampleRegistries "distil_bert" "model" =
        Except.ok ModelConfigCls) ∧
    Config.load sampleRegistries
      (Config.save (Value.vCfg ModelConfigCls.clsName
        [("name", Value.vStr "distil_bert"), ("config_type", Value.vStr "model")])
        "d" "config.yaml" "" (FileSystem.mk [] [])).1
      (Hub.mk []) "d" "config.yaml" "" [] =
      Except.ok (Value.vCfg ModelConfigCls.clsName
        [("name", Value.vStr "distil_bert"), ("config_type", Value.vStr "model")]) :=
  ⟨⟨⟨by decide, rfl, by decide, rfl, by simp [serializableFields]⟩, rfl, rfl, rfl⟩,
   C2_save_load_roundtrip sampleRegistries (FileSystem.mk [] []) (Hub.mk [])
     ModelConfigCls
     [("name", Value.vStr "distil_bert"), ("config_type", Value.vStr "model")]
     "d" "config.yaml" "" "distil_bert" "model"
     (by decide) rfl (by decide) rfl (by simp [serializableFields]) rfl rfl rfl⟩
